import Mathlib

/-!
Verification development for the sherlocked video object-detection service.

The definitions below are a shallow embedding of the Python sources
`server/app/services/detector.py`, `server/app/services/color_extractor.py`
and `server/app/main.py`:

- machine floats of the source are modelled as exact rationals;
- the OpenCV video capture is modelled by its observable interface: a flag
  for whether the file exists, a flag for whether the capture opens, the
  reported fps and frame-count metadata, the number of frames that can
  actually be decoded, and per-frame-index raw detector output;
- the YOLO model call inside `_infer_frame` is modelled as a function from
  the frame index to either a raw detection list or an inference failure;
- JPEG encoding success for a frame snapshot is modelled by a boolean
  oracle per frame index;
- raising an exception is modelled by returning an error value, and the
  `capture.release()` side effect is modelled by a boolean component of the
  result telling whether the release call ran before the function exited.

String processing is implemented over `List Char` (structural recursion)
so that every definition evaluates inside the kernel; for the ASCII inputs
handled by the service this agrees with the Python string methods.
-/

/-- Detection dataclass of `detector.py`: one YOLO detection of a frame. -/
structure Detection where
  class_name : String
  confidence : ℚ
  bbox : List ℚ
deriving DecidableEq, Repr

/-- FrameDetections dataclass of `detector.py`: detections for one sampled
frame.  The base64 snapshot string is modelled by a presence flag
(`image_b64 = true` iff the source would attach an encoded image). -/
structure FrameDetections where
  timestamp : ℚ
  frame_index : ℕ
  objects : List Detection
  image_b64 : Bool
deriving DecidableEq, Repr

/-- Target-hit record appended by `process_video` for frames where the
target object matches (the dictionary built at detector.py lines 187-196). -/
structure TargetHit where
  timestamp : ℚ
  timestamp_formatted : String
  image : Bool
  objects : List Detection
deriving DecidableEq, Repr

/-- Summary dictionary built by `process_video` (detector.py lines 209-219). -/
structure Summary where
  fps : ℚ
  duration_seconds : ℚ
  total_frames : ℕ
  processed_frames : ℕ
  frame_interval_seconds : ℚ
  confidence_threshold : ℚ
  target_object : Option String
  detections_found : ℕ
  target_hits : ℕ
deriving DecidableEq, Repr

/-- Return value of `process_video`, plus a ghost trace `sampled` recording
the indices of the frames that were forwarded to inference (the frames the
loop did not skip).  The trace is redundant bookkeeping used to state
sampling theorems; it does not alter the computation. -/
structure PvOutput where
  results : List FrameDetections
  target_hits : List TargetHit
  summary : Summary
  sampled : List ℕ
deriving DecidableEq, Repr

/-- Error exits of `process_video`: the FileNotFoundError for a missing
path, the RuntimeError for a capture that does not open, the ValueError for
a non-positive frame interval, and a propagated inference exception. -/
inductive PvError where
  | fileNotFound
  | openFailed
  | badInterval
  | inferError
deriving DecidableEq, Repr

/-- Lowercasing of an ASCII string, as Python `str.lower` behaves on the
ASCII inputs the service handles (`Char.toLower` maps only A-Z). -/
def toLowerStr (s : String) : String := String.mk (s.data.map Char.toLower)

/-- Zero-padded two-digit rendering used by the minute and second format
of `_format_timestamp` (for the non-negative values produced there). -/
def pad2 (n : ℤ) : String := if 0 ≤ n ∧ n < 10 then "0" ++ toString n else toString n

/-- Static method `_format_timestamp` of `detector.py`: minutes and seconds
of a timestamp, via Python floor division and modulo truncated to int. -/
def format_timestamp (seconds : ℚ) : String :=
  let mins : ℤ := ⌊seconds / 60⌋
  let secs : ℤ := ⌊seconds - 60 * (⌊seconds / 60⌋ : ℚ)⌋
  pad2 mins ++ ":" ++ pad2 secs

/-- Confidence filtering loop of `_infer_frame` (detector.py lines 248-262):
a detection is skipped iff `confidence < min_confidence`, all others are
kept unchanged in order. -/
def filterByConfidence (min_confidence : ℚ) (raw : List Detection) : List Detection :=
  raw.filter (fun d => !decide (d.confidence < min_confidence))

/-- Method `_infer_frame` of `detector.py`, with the YOLO model output for
the frame supplied as `raw` and JPEG encoding success as `encodeOk`. -/
def infer_frame (raw : List Detection) (min_confidence : ℚ) (timestamp : ℚ)
    (frame_index : ℕ) (encodeOk : Bool) : FrameDetections :=
  let objects := filterByConfidence min_confidence raw
  { timestamp := timestamp
    frame_index := frame_index
    objects := objects
    image_b64 := !objects.isEmpty && encodeOk }

/-- Accumulator state of the `while True` read loop of `process_video`,
with the ghost trace `sampled` of forwarded frame indices. -/
structure LoopState where
  detections : List FrameDetections
  target_hits : List TargetHit
  frame_index : ℕ
  processed_frames : ℕ
  sampled : List ℕ
deriving DecidableEq, Repr

/-- Truthiness of the Python `max_frames` optional int in
`if max_frames and processed_frames >= max_frames`. -/
def maxFramesTruthy : Option ℤ → Bool
  | none => false
  | some m => m != 0

/-- Target-hit matches of one frame (detector.py lines 181-185): the
detections whose class name equals the target case-insensitively. -/
def targetMatches (target : String) (objects : List Detection) : List Detection :=
  objects.filter (fun o => toLowerStr o.class_name == toLowerStr target)

/-- One full body of the read loop of `process_video` for a frame that was
successfully read and inferred: lines 163-204 of detector.py, without the
final break test.  Returns the updated accumulator state. -/
def loopBody (thr fps : ℚ) (target_object : Option String) (encodeOk : Bool)
    (raw : List Detection) (st : LoopState) : LoopState :=
  let fd := infer_frame raw thr ((st.frame_index : ℚ) / fps) st.frame_index encodeOk
  let detections' := if fd.objects.isEmpty then st.detections else st.detections ++ [fd]
  let hits' :=
    if fd.objects.isEmpty then st.target_hits
    else
      match target_object with
      | none => st.target_hits
      | some t =>
        if t = "" then st.target_hits
        else
          let matched := targetMatches t fd.objects
          if matched.isEmpty then st.target_hits
          else st.target_hits ++
            [{ timestamp := fd.timestamp
               timestamp_formatted := format_timestamp fd.timestamp
               image := fd.image_b64
               objects := matched }]
  { detections := detections'
    target_hits := hits'
    frame_index := st.frame_index
    processed_frames := st.processed_frames + 1
    sampled := st.sampled ++ [st.frame_index] }

/-- Read loop of `process_video` (detector.py lines 158-204).  The fuel
argument is the number of frames the capture can still decode; `capture.read`
fails exactly when it is exhausted, which is the `break` at line 161.
An inference exception propagates as an error. -/
def runLoop (infer : ℕ → Except Unit (List Detection)) (thr fps : ℚ) (frame_step : ℕ)
    (target_object : Option String) (max_frames : Option ℤ) (encodeOk : ℕ → Bool) :
    ℕ → LoopState → Except Unit LoopState
  | 0, st => .ok st
  | fuel + 1, st =>
    if st.frame_index % frame_step ≠ 0 then
      runLoop infer thr fps frame_step target_object max_frames encodeOk fuel
        { st with frame_index := st.frame_index + 1 }
    else
      match infer st.frame_index with
      | .error e => .error e
      | .ok raw =>
        let st' := loopBody thr fps target_object (encodeOk st.frame_index) raw st
        if maxFramesTruthy max_frames ∧ max_frames.getD 0 ≤ (st'.processed_frames : ℤ) then
          .ok st'
        else
          runLoop infer thr fps frame_step target_object max_frames encodeOk fuel
            { st' with frame_index := st.frame_index + 1 }

/-- Method `process_video` of `detector.py`.  The first component is the
returned dictionary or the raised exception; the second component records
whether `capture.release()` ran before the exit (it is meaningful only when
the capture was opened, i.e. `fileExists` and `openOk` hold). -/
def process_video (default_min_conf : ℚ) (fileExists openOk : Bool)
    (reportedFps : ℚ) (metaTotal : ℕ) (numFrames : ℕ)
    (infer : ℕ → Except Unit (List Detection))
    (frame_interval_seconds : ℚ) (min_confidence : Option ℚ)
    (target_object : Option String) (max_frames : Option ℤ)
    (encodeOk : ℕ → Bool) : Except PvError PvOutput × Bool :=
  if !fileExists then (.error .fileNotFound, false)
  else
    let confidence_threshold := min_confidence.getD default_min_conf
    if !openOk then (.error .openFailed, false)
    else
      let fps0 := reportedFps
      let duration : ℚ := if fps0 ≠ 0 then (metaTotal : ℚ) / fps0 else 0
      if frame_interval_seconds ≤ 0 then (.error .badInterval, false)
      else
        let fps := if fps0 ≤ 0 then 30 else fps0
        let frame_step := max (⌈frame_interval_seconds * fps⌉).toNat 1
        match runLoop infer confidence_threshold fps frame_step target_object
            max_frames encodeOk numFrames ⟨[], [], 0, 0, []⟩ with
        | .error _ => (.error .inferError, true)
        | .ok st =>
          (.ok
            { results := st.detections
              target_hits := st.target_hits
              summary :=
                { fps := fps
                  duration_seconds := duration
                  total_frames := metaTotal
                  processed_frames := st.processed_frames
                  frame_interval_seconds := frame_interval_seconds
                  confidence_threshold := confidence_threshold
                  target_object := target_object
                  detections_found := st.detections.length
                  target_hits := st.target_hits.length }
              sampled := st.sampled }, true)

/-- HSV triple as produced by OpenCV uint8 pixels: hue 0-180, saturation
and value 0-255. -/
abbrev Hsv := ℕ × ℕ × ℕ

/-- Componentwise containment test of an HSV triple in a range, the
`np.all(hsv >= lower) and np.all(hsv <= upper)` of color_extractor.py. -/
def hsvInRange (hsv lower upper : Hsv) : Bool :=
  decide (lower.1 ≤ hsv.1) && decide (lower.2.1 ≤ hsv.2.1) && decide (lower.2.2 ≤ hsv.2.2) &&
  decide (hsv.1 ≤ upper.1) && decide (hsv.2.1 ≤ upper.2.1) && decide (hsv.2.2 ≤ upper.2.2)

/-- COLOR_RANGES table of color_extractor.py, in Python dict insertion
order, each name with its list of (lower, upper) HSV ranges. -/
def COLOR_RANGES : List (String × List (Hsv × Hsv)) :=
  [ ("red", [((0, 50, 50), (10, 255, 255)), ((170, 50, 50), (180, 255, 255))])
  , ("orange", [((11, 50, 50), (25, 255, 255))])
  , ("yellow", [((26, 50, 50), (35, 255, 255))])
  , ("green", [((36, 50, 50), (85, 255, 255))])
  , ("cyan", [((86, 50, 50), (95, 255, 255))])
  , ("blue", [((96, 50, 50), (130, 255, 255))])
  , ("purple", [((131, 50, 50), (155, 255, 255))])
  , ("pink", [((156, 50, 50), (169, 255, 255))])
  , ("white", [((0, 0, 200), (180, 30, 255))])
  , ("black", [((0, 0, 0), (180, 255, 50))])
  , ("gray", [((0, 0, 51), (180, 30, 199))])
  ]

/-- First-match scan of the COLOR_RANGES table (the nested for loops at
color_extractor.py lines 166-173): return the first name one of whose
ranges contains the triple. -/
def findColorRange (hsv : Hsv) : List (String × List (Hsv × Hsv)) → Option String
  | [] => none
  | (name, ranges) :: rest =>
    if ranges.any (fun r => hsvInRange hsv r.1 r.2) then some name
    else findColorRange hsv rest

/-- Function `_hsv_to_color_name` of color_extractor.py: first-match over
the range table, then the saturation/value and hue-bucket fallback. -/
def hsv_to_color_name (hsv : Hsv) : String :=
  match findColorRange hsv COLOR_RANGES with
  | some name => name
  | none =>
    let h := hsv.1
    let s := hsv.2.1
    let v := hsv.2.2
    if s < 30 then
      if v > 200 then "white"
      else if v < 50 then "black"
      else "gray"
    else if h < 10 ∨ h ≥ 170 then "red"
    else if h < 25 then "orange"
    else if h < 35 then "yellow"
    else if h < 85 then "green"
    else if h < 95 then "cyan"
    else if h < 130 then "blue"
    else if h < 155 then "purple"
    else "pink"

/-- Function `color_matches` of color_extractor.py: strict color matching,
None never matches, otherwise lowercase-and-strip exact equality.  Python
`str.strip` is whitespace trimming, implemented here over the char list. -/
def trimStr (s : String) : String :=
  String.mk (((s.data.dropWhile Char.isWhitespace).reverse.dropWhile Char.isWhitespace).reverse)

/-- Function `color_matches` of color_extractor.py (lines 206-225). -/
def color_matches (detected_color : Option String) (query_color : String) : Bool :=
  match detected_color with
  | none => false
  | some d => trimStr (toLowerStr d) == trimStr (toLowerStr query_color)

/-- Bounding-box geometry prefix of `extract_dominant_color`
(color_extractor.py lines 77-99) followed by the abstracted remainder.
The `rest` argument stands for the outcome of the resize, HSV conversion,
k-means clustering and classification steps on the cropped pixels (which
depend on image data not modelled here); `rest = none` models an exception
inside those steps, which the enclosing `except` turns into the sentinel.
A bbox whose length is not 4 makes the 4-way unpacking raise, which the
same `except` also turns into the sentinel. -/
def extract_dominant_color (height width : ℕ) (bbox : List ℤ)
    (rest : Option (String × List ℤ)) : Option (String × List ℤ) :=
  match bbox with
  | [bx1, by1, bx2, by2] =>
    let x1 := max 0 (min bx1 ((width : ℤ) - 1))
    let y1 := max 0 (min by1 ((height : ℤ) - 1))
    let x2 := max 0 (min bx2 (width : ℤ))
    let y2 := max 0 (min by2 (height : ℤ))
    if x2 ≤ x1 ∨ y2 ≤ y1 then none
    else
      let roiH := y2 - y1
      let roiW := x2 - x1
      if roiH * roiW = 0 ∨ roiH < 5 ∨ roiW < 5 then none
      else rest
  | _ => none

/-- Closed color vocabulary of the specification. -/
def colorVocabulary : List String :=
  ["red", "orange", "yellow", "green", "cyan", "blue", "purple", "pink",
   "white", "black", "gray"]

/-- Spec-side color classifier, written from the ordered range table of
spec section 4.5 (red's two disjoint hue bands as one row, chromatic rows
requiring sat and val at least 50, then white, black, gray rows) followed
by the stated fallback.  Used only to be compared with the source-derived
`hsv_to_color_name`. -/
def specClassify (hsv : Hsv) : String :=
  let h := hsv.1
  let s := hsv.2.1
  let v := hsv.2.2
  if (h ≤ 10 ∨ (170 ≤ h ∧ h ≤ 180)) ∧ 50 ≤ s ∧ 50 ≤ v then "red"
  else if 11 ≤ h ∧ h ≤ 25 ∧ 50 ≤ s ∧ 50 ≤ v then "orange"
  else if 26 ≤ h ∧ h ≤ 35 ∧ 50 ≤ s ∧ 50 ≤ v then "yellow"
  else if 36 ≤ h ∧ h ≤ 85 ∧ 50 ≤ s ∧ 50 ≤ v then "green"
  else if 86 ≤ h ∧ h ≤ 95 ∧ 50 ≤ s ∧ 50 ≤ v then "cyan"
  else if 96 ≤ h ∧ h ≤ 130 ∧ 50 ≤ s ∧ 50 ≤ v then "blue"
  else if 131 ≤ h ∧ h ≤ 155 ∧ 50 ≤ s ∧ 50 ≤ v then "purple"
  else if 156 ≤ h ∧ h ≤ 169 ∧ 50 ≤ s ∧ 50 ≤ v then "pink"
  else if s ≤ 30 ∧ 200 ≤ v then "white"
  else if v ≤ 50 then "black"
  else if s ≤ 30 ∧ 51 ≤ v ∧ v ≤ 199 then "gray"
  else if s < 30 then
    if v > 200 then "white"
    else if v < 50 then "black"
    else "gray"
  else if h < 10 ∨ h ≥ 170 then "red"
  else if h < 25 then "orange"
  else if h < 35 then "yellow"
  else if h < 85 then "green"
  else if h < 95 then "cyan"
  else if h < 130 then "blue"
  else if h < 155 then "purple"
  else "pink"

/-- Colorized detection as the TargetMatcher sees it: the class name of a
filtered detection together with the optional color name attached by the
ColorExtractor (the sentinel leaves it absent). -/
structure ColorizedDetection where
  class_name : String
  color_name : Option String
deriving DecidableEq, Repr

/-- Target query: object name with optional color qualifier. -/
structure TargetQuery where
  object_name : String
  color_name : Option String
deriving DecidableEq, Repr

/-- Modelled from the spec: the per-query satisfaction test of the
TargetMatcher (spec section 4.6), whose orchestration over (object, color)
query pairs is not part of the sources under src/; the class-name test is
the case-insensitive comparison of detector.py line 184 and the color test
is the source function `color_matches`. -/
def satisfiesQuery (d : ColorizedDetection) (q : TargetQuery) : Bool :=
  (toLowerStr d.class_name == toLowerStr q.object_name) &&
  (match q.color_name with
   | none => true
   | some c => color_matches d.color_name c)

/-- Modelled from the spec: the TargetMatcher of spec section 4.6 — the
subsequence of a frame's detections satisfying at least one query, each
matched detection listed once regardless of how many queries match it. -/
def matchedDetections (queries : List TargetQuery) (dets : List ColorizedDetection) :
    List ColorizedDetection :=
  dets.filter (fun d => queries.any (satisfiesQuery d))

/-- STOPWORDS set of main.py (lines 135-164); a Python set used only for
membership tests, modelled as a list. -/
def STOPWORDS : List String :=
  ["find", "show", "frame", "frames", "with", "please", "can", "you", "the",
   "a", "an", "any", "all", "of", "for", "look", "search", "detect", "spot",
   "every", "to", "in", "on", "at", "video", "footage", "objects", "and"]

/-- Color keyword set of the parse_intent fallback (main.py lines 279-284). -/
def color_keywords : List String :=
  ["red", "blue", "green", "yellow", "orange", "purple", "pink",
   "black", "white", "gray", "grey", "brown", "cyan", "navy",
   "maroon", "violet", "indigo", "turquoise", "lime", "olive",
   "teal", "aqua", "magenta", "silver", "gold", "beige", "tan"]

/-- Word character of the regex word boundary: letter, digit or underscore
(ASCII fragment of Python re word characters). -/
def isWordChar (c : Char) : Bool := c.isAlphanum || c == '_'

/-- Maximal runs of word characters of a character list, in order; the
accumulator carries the current run reversed. -/
def wordRunsAux (acc : List Char) : List Char → List (List Char)
  | [] => if acc.isEmpty then [] else [acc.reverse]
  | c :: rest =>
    if isWordChar c then wordRunsAux (c :: acc) rest
    else if acc.isEmpty then wordRunsAux [] rest
    else acc.reverse :: wordRunsAux [] rest

/-- Tokenization of the fallback regex `\b[a-z]{3,}\b` applied to the
lowercased query (main.py line 276): the maximal word-character runs that
consist solely of letters a-z and have length at least 3.  A run containing
a digit or underscore has no interior word boundary, so it contributes no
match. -/
def findTokens (s : String) : List String :=
  (wordRunsAux [] s.data).filterMap (fun run =>
    if run.length ≥ 3 && run.all (fun c => 'a' ≤ c && c ≤ 'z') then
      some (String.mk run)
    else none)

/-- Whitespace fields of a character list: Python `str.split()` with no
separator, dropping empty fields. -/
def splitWsAux (acc : List Char) : List Char → List String
  | [] => if acc.isEmpty then [] else [String.mk acc.reverse]
  | c :: rest =>
    if c.isWhitespace then
      if acc.isEmpty then splitWsAux [] rest
      else String.mk acc.reverse :: splitWsAux [] rest
    else splitWsAux (c :: acc) rest

/-- Python `query.lower().split()` of the fallback pair scan (main.py
line 288). -/
def lowerWords (s : String) : List String := splitWsAux [] (toLowerStr s).data

/-- Adjacent-pair scan of the fallback (main.py lines 289-293): for every
position where a color keyword is immediately followed by a word that is
neither a stopword nor a color keyword, emit the (object, color) pair. -/
def pairsFromWords : List String → List (String × String)
  | w1 :: w2 :: rest =>
    if color_keywords.contains w1 && !STOPWORDS.contains w2 && !color_keywords.contains w2 then
      (w2, w1) :: pairsFromWords (w2 :: rest)
    else pairsFromWords (w2 :: rest)
  | _ => []

/-- Lexicographic code-point comparison of character lists, the order
Python `sorted` uses on strings. -/
def charListLe : List Char → List Char → Bool
  | [], _ => true
  | _ :: _, [] => false
  | a :: as, b :: bs => if a < b then true else if b < a then false else charListLe as bs

/-- Ordered insertion into a string list sorted by code-point order. -/
def insertSorted (x : String) : List String → List String
  | [] => [x]
  | y :: ys => if charListLe x.data y.data then x :: y :: ys else y :: insertSorted x ys

/-- Python `sorted(set(l))`: the distinct elements in increasing
lexicographic (code point) order. -/
def sortedSet (l : List String) : List String := l.dedup.foldr insertSorted []

/-- Deduplication of pairs keyed on (object, color) keeping first
occurrences (main.py lines 311-318). -/
def dedupPairsAux (seen : List (String × String)) :
    List (String × String) → List (String × String)
  | [] => []
  | p :: rest =>
    if seen.contains p then dedupPairsAux seen rest
    else p :: dedupPairsAux (p :: seen) rest

/-- Deduplication entry point for the pair list. -/
def dedupPairs (l : List (String × String)) : List (String × String) := dedupPairsAux [] l

/-- IntentResponse model of main.py: detection targets, colors, and
(object, color) pairs. -/
structure IntentResponse where
  targets : List String
  colors : List String
  pairs : List (String × String)
deriving DecidableEq, Repr

/-- Function `parse_intent` of main.py on the path with no external intent
parser configured (`settings.gemini_api_key` absent): the strip-and-empty
check of lines 169-171, the deterministic local fallback of lines 274-304,
and the cleanup of lines 306-318. -/
def parse_intent_fallback (query0 : String) : IntentResponse :=
  let query := trimStr query0
  if query = "" then ⟨[], [], []⟩
  else
    let tokens := findTokens (toLowerStr query)
    let words := lowerWords query
    let pairs1 := pairsFromWords words
    let targetsA :=
      if pairs1.isEmpty then
        sortedSet (tokens.filter (fun t =>
          !color_keywords.contains t && !STOPWORDS.contains t))
      else sortedSet (pairs1.map (fun p => p.1))
    let colorsA :=
      if pairs1.isEmpty then sortedSet (tokens.filter (fun t => color_keywords.contains t))
      else sortedSet (pairs1.map (fun p => p.2))
    let targetsF := sortedSet (targetsA.filter (fun t => t ≠ "" && !STOPWORDS.contains t))
    let colorsF := sortedSet colorsA
    ⟨targetsF, colorsF, dedupPairs pairs1⟩

/-- Formalization of claim C7's description of the fallback, written from
the claim's words: lowercase-tokenize words of length at least 3, remove
the stopword set, identify color tokens, pair a color token with its
immediate successor when that successor is neither stopword nor color, and
otherwise emit color tokens and remaining tokens separately.  Used only to
be compared with the source-derived `parse_intent_fallback`. -/
def claimFallback (query0 : String) : IntentResponse :=
  let query := trimStr query0
  if query = "" then ⟨[], [], []⟩
  else
    let tokens := (findTokens (toLowerStr query)).filter (fun t => !STOPWORDS.contains t)
    let pairs1 := pairsFromWords tokens
    let targetsA :=
      if pairs1.isEmpty then
        sortedSet (tokens.filter (fun t => !color_keywords.contains t))
      else sortedSet (pairs1.map (fun p => p.1))
    let colorsA :=
      if pairs1.isEmpty then sortedSet (tokens.filter (fun t => color_keywords.contains t))
      else sortedSet (pairs1.map (fun p => p.2))
    ⟨targetsA, colorsA, dedupPairs pairs1⟩

/-- Helper: a name produced by the first-match scan is a name of the
scanned table. -/
theorem findColorRange_mem {hsv : Hsv} {n : String} :
    ∀ {l : List (String × List (Hsv × Hsv))},
      findColorRange hsv l = some n → n ∈ l.map Prod.fst
  | [], h => by simp [findColorRange] at h
  | (name, rs) :: rest, h => by
    rw [findColorRange] at h
    split at h
    · simp only [Option.some.injEq] at h
      simp [h]
    · simpa using Or.inr (findColorRange_mem h)

/-- C8: the color classifier is total on valid HSV triples and its result
is always drawn from the closed eleven-name vocabulary. -/
theorem hsv_classifier_total (h s v : ℕ)
    (hh : h ≤ 180) (hs : s ≤ 255) (hv : v ≤ 255) :
    hsv_to_color_name (h, s, v) ∈ colorVocabulary := by
  rw [hsv_to_color_name]
  rcases hfind : findColorRange (h, s, v) COLOR_RANGES with _ | name
  · simp only
    split_ifs <;> simp [colorVocabulary]
  · simp only
    have hmem := findColorRange_mem hfind
    have : COLOR_RANGES.map Prod.fst = colorVocabulary := by decide
    rwa [this] at hmem

/-- Witness for C8 at a concrete in-range triple. -/
theorem hsv_classifier_total_witness :
    hsv_to_color_name (100, 100, 100) ∈ colorVocabulary :=
  hsv_classifier_total 100 100 100 (by decide) (by decide) (by decide)

/-- C3: the confidence filter returns exactly the subsequence of detections
with confidence at least the threshold, in original order and unmodified;
confidence 0.59 is dropped at threshold 0.6 while exactly 0.6 is kept. -/
theorem confidence_filter_exact (thr : ℚ) (raw : List Detection) :
    filterByConfidence thr raw = raw.filter (fun d => decide (thr ≤ d.confidence)) ∧
    (filterByConfidence thr raw).Sublist raw ∧
    (∀ d, d ∈ filterByConfidence thr raw ↔ d ∈ raw ∧ thr ≤ d.confidence) ∧
    filterByConfidence (6/10) [⟨"a", 59/100, []⟩, ⟨"b", 6/10, []⟩] = [⟨"b", 6/10, []⟩] := by
  have hpred : ∀ d : Detection, (!decide (d.confidence < thr)) = decide (thr ≤ d.confidence) := by
    intro d
    rw [← decide_not, decide_eq_decide]
    exact not_lt
  refine ⟨?_, ?_, ?_, ?_⟩
  · unfold filterByConfidence
    exact List.filter_congr (fun d _ => hpred d)
  · exact List.filter_sublist raw
  · intro d
    unfold filterByConfidence
    rw [List.mem_filter]
    simp [not_lt]
  · norm_num [filterByConfidence, List.filter]

/-- Witness instantiating C3 at the concrete scenario input. -/
theorem confidence_filter_exact_witness :
    filterByConfidence (6/10) [⟨"a", 59/100, []⟩, ⟨"b", 6/10, []⟩] = [⟨"b", 6/10, []⟩] :=
  (confidence_filter_exact (6/10) [⟨"a", 59/100, []⟩, ⟨"b", 6/10, []⟩]).2.2.2

/-- C6: the color extractor is total and returns the sentinel whenever the
clamped bbox is degenerate, whenever a side of the crop is under 5 pixels,
and whenever the abstracted clustering steps fail; the inverted bbox
[5,5,3,3] always yields the sentinel. -/
theorem extract_dominant_color_sentinel :
    (∀ (height width : ℕ) (bbox : List ℤ),
      extract_dominant_color height width bbox none = none) ∧
    (∀ (height width : ℕ) (bx1 by1 bx2 by2 : ℤ) (rest : Option (String × List ℤ)),
      max 0 (min bx2 (width : ℤ)) ≤ max 0 (min bx1 ((width : ℤ) - 1)) ∨
      max 0 (min by2 (height : ℤ)) ≤ max 0 (min by1 ((height : ℤ) - 1)) →
      extract_dominant_color height width [bx1, by1, bx2, by2] rest = none) ∧
    (∀ (height width : ℕ) (bx1 by1 bx2 by2 : ℤ) (rest : Option (String × List ℤ)),
      max 0 (min bx2 (width : ℤ)) - max 0 (min bx1 ((width : ℤ) - 1)) < 5 ∨
      max 0 (min by2 (height : ℤ)) - max 0 (min by1 ((height : ℤ) - 1)) < 5 →
      extract_dominant_color height width [bx1, by1, bx2, by2] rest = none) ∧
    (∀ (height width : ℕ) (rest : Option (String × List ℤ)),
      extract_dominant_color height width [5, 5, 3, 3] rest = none) := by
  refine ⟨?_, ?_, ?_, ?_⟩
  · intro height width bbox
    unfold extract_dominant_color
    split
    · dsimp only
      split_ifs <;> rfl
    · rfl
  · intro height width bx1 by1 bx2 by2 rest hdeg
    unfold extract_dominant_color
    dsimp only
    rw [if_pos hdeg]
  · intro height width bx1 by1 bx2 by2 rest hsmall
    unfold extract_dominant_color
    dsimp only
    split_ifs with h1 h2
    · rfl
    · rfl
    · exfalso
      apply h2
      rcases hsmall with h | h
      · right; right; omega
      · right; left; omega
  · intro height width rest
    unfold extract_dominant_color
    dsimp only
    split_ifs with h1 h2
    · rfl
    · rfl
    · exfalso
      apply h2
      right; right
      omega

/-- Witness instantiating C6 at the inverted scenario bbox with a
clustering outcome present, and the clustering-failure clause at a valid
bbox. -/
theorem extract_dominant_color_sentinel_witness :
    extract_dominant_color 100 100 [5, 5, 3, 3] (some ("red", [200, 0, 0])) = none ∧
    extract_dominant_color 100 100 [0, 0, 50, 50] none = none :=
  ⟨extract_dominant_color_sentinel.2.2.2 100 100 (some ("red", [200, 0, 0])),
   extract_dominant_color_sentinel.1 100 100 [0, 0, 50, 50]⟩

/-- Helper for C2: satisfaction of one query unfolded to a proposition. -/
theorem satisfiesQuery_iff (d : ColorizedDetection) (q : TargetQuery) :
    satisfiesQuery d q = true ↔
      toLowerStr d.class_name = toLowerStr q.object_name ∧
        (q.color_name = none ∨
          ∃ c, q.color_name = some c ∧ color_matches d.color_name c = true) := by
  rcases q with ⟨obj, _ | c⟩
  · simp [satisfiesQuery]
  · simp [satisfiesQuery]

/-- C2: matched detections are exactly those satisfying at least one query;
satisfaction is case-insensitive class equality plus, when the query has a
color, strict color equality; a detection without a color never satisfies a
color-qualified query; the blue/red shirt scenario matches only the blue
one. -/
theorem target_matcher_exact (queries : List TargetQuery) (dets : List ColorizedDetection) :
    (∀ d, d ∈ matchedDetections queries dets ↔
      d ∈ dets ∧ ∃ q ∈ queries,
        toLowerStr d.class_name = toLowerStr q.object_name ∧
          (q.color_name = none ∨
            ∃ c, q.color_name = some c ∧ color_matches d.color_name c = true)) ∧
    (∀ (cn : String) (q : TargetQuery) (c : String), q.color_name = some c →
      satisfiesQuery ⟨cn, none⟩ q = false) ∧
    matchedDetections [⟨"shirt", some "blue"⟩]
      [⟨"shirt", some "blue"⟩, ⟨"shirt", some "red"⟩] = [⟨"shirt", some "blue"⟩] ∧
    color_matches (some "Red") "red" = true ∧
    color_matches (some "red") "crimson" = false := by
  refine ⟨?_, ?_, by decide, by decide, by decide⟩
  · intro d
    rw [matchedDetections, List.mem_filter, List.any_eq_true]
    constructor
    · rintro ⟨hmem, q, hq, hsat⟩
      exact ⟨hmem, q, hq, (satisfiesQuery_iff d q).mp hsat⟩
    · rintro ⟨hmem, q, hq, hsat⟩
      exact ⟨hmem, q, hq, (satisfiesQuery_iff d q).mpr hsat⟩
  · intro cn q c hc
    rw [satisfiesQuery, hc]
    simp [color_matches]

/-- Witness instantiating C2 at the scenario query and frame. -/
theorem target_matcher_exact_witness :
    (⟨"shirt", some "blue"⟩ : ColorizedDetection) ∈
      matchedDetections [⟨"shirt", some "blue"⟩]
        [⟨"shirt", some "blue"⟩, ⟨"shirt", some "red"⟩] :=
  ((target_matcher_exact [⟨"shirt", some "blue"⟩]
      [⟨"shirt", some "blue"⟩, ⟨"shirt", some "red"⟩]).1 ⟨"shirt", some "blue"⟩).mpr
    ⟨by decide, ⟨"shirt", some "blue"⟩, by decide, by decide, Or.inr ⟨"blue", rfl, by decide⟩⟩

/-- Helper for C4: the first-match scan over the concrete COLOR_RANGES
table, unfolded to its if-chain. -/
theorem findColorRange_unfold (hsv : Hsv) :
    findColorRange hsv COLOR_RANGES =
      (if (hsvInRange hsv (0, 50, 50) (10, 255, 255) ||
            (hsvInRange hsv (170, 50, 50) (180, 255, 255) || false)) then some "red"
       else if (hsvInRange hsv (11, 50, 50) (25, 255, 255) || false) then some "orange"
       else if (hsvInRange hsv (26, 50, 50) (35, 255, 255) || false) then some "yellow"
       else if (hsvInRange hsv (36, 50, 50) (85, 255, 255) || false) then some "green"
       else if (hsvInRange hsv (86, 50, 50) (95, 255, 255) || false) then some "cyan"
       else if (hsvInRange hsv (96, 50, 50) (130, 255, 255) || false) then some "blue"
       else if (hsvInRange hsv (131, 50, 50) (155, 255, 255) || false) then some "purple"
       else if (hsvInRange hsv (156, 50, 50) (169, 255, 255) || false) then some "pink"
       else if (hsvInRange hsv (0, 0, 200) (180, 30, 255) || false) then some "white"
       else if (hsvInRange hsv (0, 0, 0) (180, 255, 50) || false) then some "black"
       else if (hsvInRange hsv (0, 0, 51) (180, 30, 199) || false) then some "gray"
       else none) := rfl

/-- Helper for C4: the first-match scan over the concrete COLOR_RANGES
table, unfolded to its if-chain with simplified conditions. -/
theorem findColorRangeSimple (hsv : Hsv) :
    findColorRange hsv COLOR_RANGES =
      (if (hsvInRange hsv (0, 50, 50) (10, 255, 255) ||
            hsvInRange hsv (170, 50, 50) (180, 255, 255)) then some "red"
       else if hsvInRange hsv (11, 50, 50) (25, 255, 255) then some "orange"
       else if hsvInRange hsv (26, 50, 50) (35, 255, 255) then some "yellow"
       else if hsvInRange hsv (36, 50, 50) (85, 255, 255) then some "green"
       else if hsvInRange hsv (86, 50, 50) (95, 255, 255) then some "cyan"
       else if hsvInRange hsv (96, 50, 50) (130, 255, 255) then some "blue"
       else if hsvInRange hsv (131, 50, 50) (155, 255, 255) then some "purple"
       else if hsvInRange hsv (156, 50, 50) (169, 255, 255) then some "pink"
       else if hsvInRange hsv (0, 0, 200) (180, 30, 255) then some "white"
       else if hsvInRange hsv (0, 0, 0) (180, 255, 50) then some "black"
       else if hsvInRange hsv (0, 0, 51) (180, 30, 199) then some "gray"
       else none) := by
  rw [findColorRange_unfold]
  simp only [Bool.or_false]

set_option maxHeartbeats 1000000 in
/-- C4: the source classifier agrees with the spec's ordered range table
(red's two disjoint bands first, then the other rows in order) followed by
the stated low-saturation and hue-bucket fallback, on every valid triple. -/
theorem hsv_classifier_matches_spec (h s v : ℕ)
    (hh : h ≤ 180) (hs : s ≤ 255) (hv : v ≤ 255) :
    hsv_to_color_name (h, s, v) = specClassify (h, s, v) := by
  rw [hsv_to_color_name, findColorRangeSimple, specClassify]
  dsimp only
  by_cases c1 : (hsvInRange (h, s, v) (0, 50, 50) (10, 255, 255) || hsvInRange (h, s, v) (170, 50, 50) (180, 255, 255)) = true
  · rw [if_pos c1]
    simp only [hsvInRange, Bool.or_eq_true, Bool.and_eq_true, decide_eq_true_eq] at c1
    rw [if_pos (show (h ≤ 10 ∨ (170 ≤ h ∧ h ≤ 180)) ∧ 50 ≤ s ∧ 50 ≤ v by omega)]
  by_cases c2 : hsvInRange (h, s, v) (11, 50, 50) (25, 255, 255) = true
  · rw [if_neg c1, if_pos c2]
    simp only [hsvInRange, Bool.or_eq_true, Bool.and_eq_true, decide_eq_true_eq] at c1 c2
    rw [if_neg (show ¬((h ≤ 10 ∨ (170 ≤ h ∧ h ≤ 180)) ∧ 50 ≤ s ∧ 50 ≤ v) by omega), if_pos (show 11 ≤ h ∧ h ≤ 25 ∧ 50 ≤ s ∧ 50 ≤ v by omega)]
  by_cases c3 : hsvInRange (h, s, v) (26, 50, 50) (35, 255, 255) = true
  · rw [if_neg c1, if_neg c2, if_pos c3]
    simp only [hsvInRange, Bool.or_eq_true, Bool.and_eq_true, decide_eq_true_eq] at c1 c2 c3
    rw [if_neg (show ¬((h ≤ 10 ∨ (170 ≤ h ∧ h ≤ 180)) ∧ 50 ≤ s ∧ 50 ≤ v) by omega), if_neg (show ¬(11 ≤ h ∧ h ≤ 25 ∧ 50 ≤ s ∧ 50 ≤ v) by omega), if_pos (show 26 ≤ h ∧ h ≤ 35 ∧ 50 ≤ s ∧ 50 ≤ v by omega)]
  by_cases c4 : hsvInRange (h, s, v) (36, 50, 50) (85, 255, 255) = true
  · rw [if_neg c1, if_neg c2, if_neg c3, if_pos c4]
    simp only [hsvInRange, Bool.or_eq_true, Bool.and_eq_true, decide_eq_true_eq] at c1 c2 c3 c4
    rw [if_neg (show ¬((h ≤ 10 ∨ (170 ≤ h ∧ h ≤ 180)) ∧ 50 ≤ s ∧ 50 ≤ v) by omega), if_neg (show ¬(11 ≤ h ∧ h ≤ 25 ∧ 50 ≤ s ∧ 50 ≤ v) by omega), if_neg (show ¬(26 ≤ h ∧ h ≤ 35 ∧ 50 ≤ s ∧ 50 ≤ v) by omega), if_pos (show 36 ≤ h ∧ h ≤ 85 ∧ 50 ≤ s ∧ 50 ≤ v by omega)]
  by_cases c5 : hsvInRange (h, s, v) (86, 50, 50) (95, 255, 255) = true
  · rw [if_neg c1, if_neg c2, if_neg c3, if_neg c4, if_pos c5]
    simp only [hsvInRange, Bool.or_eq_true, Bool.and_eq_true, decide_eq_true_eq] at c1 c2 c3 c4 c5
    rw [if_neg (show ¬((h ≤ 10 ∨ (170 ≤ h ∧ h ≤ 180)) ∧ 50 ≤ s ∧ 50 ≤ v) by omega), if_neg (show ¬(11 ≤ h ∧ h ≤ 25 ∧ 50 ≤ s ∧ 50 ≤ v) by omega), if_neg (show ¬(26 ≤ h ∧ h ≤ 35 ∧ 50 ≤ s ∧ 50 ≤ v) by omega), if_neg (show ¬(36 ≤ h ∧ h ≤ 85 ∧ 50 ≤ s ∧ 50 ≤ v) by omega), if_pos (show 86 ≤ h ∧ h ≤ 95 ∧ 50 ≤ s ∧ 50 ≤ v by omega)]
  by_cases c6 : hsvInRange (h, s, v) (96, 50, 50) (130, 255, 255) = true
  · rw [if_neg c1, if_neg c2, if_neg c3, if_neg c4, if_neg c5, if_pos c6]
    simp only [hsvInRange, Bool.or_eq_true, Bool.and_eq_true, decide_eq_true_eq] at c1 c2 c3 c4 c5 c6
    rw [if_neg (show ¬((h ≤ 10 ∨ (170 ≤ h ∧ h ≤ 180)) ∧ 50 ≤ s ∧ 50 ≤ v) by omega), if_neg (show ¬(11 ≤ h ∧ h ≤ 25 ∧ 50 ≤ s ∧ 50 ≤ v) by omega), if_neg (show ¬(26 ≤ h ∧ h ≤ 35 ∧ 50 ≤ s ∧ 50 ≤ v) by omega), if_neg (show ¬(36 ≤ h ∧ h ≤ 85 ∧ 50 ≤ s ∧ 50 ≤ v) by omega), if_neg (show ¬(86 ≤ h ∧ h ≤ 95 ∧ 50 ≤ s ∧ 50 ≤ v) by omega), if_pos (show 96 ≤ h ∧ h ≤ 130 ∧ 50 ≤ s ∧ 50 ≤ v by omega)]
  by_cases c7 : hsvInRange (h, s, v) (131, 50, 50) (155, 255, 255) = true
  · rw [if_neg c1, if_neg c2, if_neg c3, if_neg c4, if_neg c5, if_neg c6, if_pos c7]
    simp only [hsvInRange, Bool.or_eq_true, Bool.and_eq_true, decide_eq_true_eq] at c1 c2 c3 c4 c5 c6 c7
    rw [if_neg (show ¬((h ≤ 10 ∨ (170 ≤ h ∧ h ≤ 180)) ∧ 50 ≤ s ∧ 50 ≤ v) by omega), if_neg (show ¬(11 ≤ h ∧ h ≤ 25 ∧ 50 ≤ s ∧ 50 ≤ v) by omega), if_neg (show ¬(26 ≤ h ∧ h ≤ 35 ∧ 50 ≤ s ∧ 50 ≤ v) by omega), if_neg (show ¬(36 ≤ h ∧ h ≤ 85 ∧ 50 ≤ s ∧ 50 ≤ v) by omega), if_neg (show ¬(86 ≤ h ∧ h ≤ 95 ∧ 50 ≤ s ∧ 50 ≤ v) by omega), if_neg (show ¬(96 ≤ h ∧ h ≤ 130 ∧ 50 ≤ s ∧ 50 ≤ v) by omega), if_pos (show 131 ≤ h ∧ h ≤ 155 ∧ 50 ≤ s ∧ 50 ≤ v by omega)]
  by_cases c8 : hsvInRange (h, s, v) (156, 50, 50) (169, 255, 255) = true
  · rw [if_neg c1, if_neg c2, if_neg c3, if_neg c4, if_neg c5, if_neg c6, if_neg c7, if_pos c8]
    simp only [hsvInRange, Bool.or_eq_true, Bool.and_eq_true, decide_eq_true_eq] at c1 c2 c3 c4 c5 c6 c7 c8
    rw [if_neg (show ¬((h ≤ 10 ∨ (170 ≤ h ∧ h ≤ 180)) ∧ 50 ≤ s ∧ 50 ≤ v) by omega), if_neg (show ¬(11 ≤ h ∧ h ≤ 25 ∧ 50 ≤ s ∧ 50 ≤ v) by omega), if_neg (show ¬(26 ≤ h ∧ h ≤ 35 ∧ 50 ≤ s ∧ 50 ≤ v) by omega), if_neg (show ¬(36 ≤ h ∧ h ≤ 85 ∧ 50 ≤ s ∧ 50 ≤ v) by omega), if_neg (show ¬(86 ≤ h ∧ h ≤ 95 ∧ 50 ≤ s ∧ 50 ≤ v) by omega), if_neg (show ¬(96 ≤ h ∧ h ≤ 130 ∧ 50 ≤ s ∧ 50 ≤ v) by omega), if_neg (show ¬(131 ≤ h ∧ h ≤ 155 ∧ 50 ≤ s ∧ 50 ≤ v) by omega), if_pos (show 156 ≤ h ∧ h ≤ 169 ∧ 50 ≤ s ∧ 50 ≤ v by omega)]
  by_cases c9 : hsvInRange (h, s, v) (0, 0, 200) (180, 30, 255) = true
  · rw [if_neg c1, if_neg c2, if_neg c3, if_neg c4, if_neg c5, if_neg c6, if_neg c7, if_neg c8, if_pos c9]
    simp only [hsvInRange, Bool.or_eq_true, Bool.and_eq_true, decide_eq_true_eq] at c1 c2 c3 c4 c5 c6 c7 c8 c9
    rw [if_neg (show ¬((h ≤ 10 ∨ (170 ≤ h ∧ h ≤ 180)) ∧ 50 ≤ s ∧ 50 ≤ v) by omega), if_neg (show ¬(11 ≤ h ∧ h ≤ 25 ∧ 50 ≤ s ∧ 50 ≤ v) by omega), if_neg (show ¬(26 ≤ h ∧ h ≤ 35 ∧ 50 ≤ s ∧ 50 ≤ v) by omega), if_neg (show ¬(36 ≤ h ∧ h ≤ 85 ∧ 50 ≤ s ∧ 50 ≤ v) by omega), if_neg (show ¬(86 ≤ h ∧ h ≤ 95 ∧ 50 ≤ s ∧ 50 ≤ v) by omega), if_neg (show ¬(96 ≤ h ∧ h ≤ 130 ∧ 50 ≤ s ∧ 50 ≤ v) by omega), if_neg (show ¬(131 ≤ h ∧ h ≤ 155 ∧ 50 ≤ s ∧ 50 ≤ v) by omega), if_neg (show ¬(156 ≤ h ∧ h ≤ 169 ∧ 50 ≤ s ∧ 50 ≤ v) by omega), if_pos (show s ≤ 30 ∧ 200 ≤ v by omega)]
  by_cases c10 : hsvInRange (h, s, v) (0, 0, 0) (180, 255, 50) = true
  · rw [if_neg c1, if_neg c2, if_neg c3, if_neg c4, if_neg c5, if_neg c6, if_neg c7, if_neg c8, if_neg c9, if_pos c10]
    simp only [hsvInRange, Bool.or_eq_true, Bool.and_eq_true, decide_eq_true_eq] at c1 c2 c3 c4 c5 c6 c7 c8 c9 c10
    rw [if_neg (show ¬((h ≤ 10 ∨ (170 ≤ h ∧ h ≤ 180)) ∧ 50 ≤ s ∧ 50 ≤ v) by omega), if_neg (show ¬(11 ≤ h ∧ h ≤ 25 ∧ 50 ≤ s ∧ 50 ≤ v) by omega), if_neg (show ¬(26 ≤ h ∧ h ≤ 35 ∧ 50 ≤ s ∧ 50 ≤ v) by omega), if_neg (show ¬(36 ≤ h ∧ h ≤ 85 ∧ 50 ≤ s ∧ 50 ≤ v) by omega), if_neg (show ¬(86 ≤ h ∧ h ≤ 95 ∧ 50 ≤ s ∧ 50 ≤ v) by omega), if_neg (show ¬(96 ≤ h ∧ h ≤ 130 ∧ 50 ≤ s ∧ 50 ≤ v) by omega), if_neg (show ¬(131 ≤ h ∧ h ≤ 155 ∧ 50 ≤ s ∧ 50 ≤ v) by omega), if_neg (show ¬(156 ≤ h ∧ h ≤ 169 ∧ 50 ≤ s ∧ 50 ≤ v) by omega), if_neg (show ¬(s ≤ 30 ∧ 200 ≤ v) by omega), if_pos (show v ≤ 50 by omega)]
  by_cases c11 : hsvInRange (h, s, v) (0, 0, 51) (180, 30, 199) = true
  · rw [if_neg c1, if_neg c2, if_neg c3, if_neg c4, if_neg c5, if_neg c6, if_neg c7, if_neg c8, if_neg c9, if_neg c10, if_pos c11]
    simp only [hsvInRange, Bool.or_eq_true, Bool.and_eq_true, decide_eq_true_eq] at c1 c2 c3 c4 c5 c6 c7 c8 c9 c10 c11
    rw [if_neg (show ¬((h ≤ 10 ∨ (170 ≤ h ∧ h ≤ 180)) ∧ 50 ≤ s ∧ 50 ≤ v) by omega), if_neg (show ¬(11 ≤ h ∧ h ≤ 25 ∧ 50 ≤ s ∧ 50 ≤ v) by omega), if_neg (show ¬(26 ≤ h ∧ h ≤ 35 ∧ 50 ≤ s ∧ 50 ≤ v) by omega), if_neg (show ¬(36 ≤ h ∧ h ≤ 85 ∧ 50 ≤ s ∧ 50 ≤ v) by omega), if_neg (show ¬(86 ≤ h ∧ h ≤ 95 ∧ 50 ≤ s ∧ 50 ≤ v) by omega), if_neg (show ¬(96 ≤ h ∧ h ≤ 130 ∧ 50 ≤ s ∧ 50 ≤ v) by omega), if_neg (show ¬(131 ≤ h ∧ h ≤ 155 ∧ 50 ≤ s ∧ 50 ≤ v) by omega), if_neg (show ¬(156 ≤ h ∧ h ≤ 169 ∧ 50 ≤ s ∧ 50 ≤ v) by omega), if_neg (show ¬(s ≤ 30 ∧ 200 ≤ v) by omega), if_neg (show ¬(v ≤ 50) by omega), if_pos (show s ≤ 30 ∧ 51 ≤ v ∧ v ≤ 199 by omega)]
  rw [if_neg c1]
  rw [if_neg c2]
  rw [if_neg c3]
  rw [if_neg c4]
  rw [if_neg c5]
  rw [if_neg c6]
  rw [if_neg c7]
  rw [if_neg c8]
  rw [if_neg c9]
  rw [if_neg c10]
  rw [if_neg c11]
  simp only [hsvInRange, Bool.or_eq_true, Bool.and_eq_true, decide_eq_true_eq] at c1 c2 c3 c4 c5 c6 c7 c8 c9 c10 c11
  rw [if_neg (show ¬((h ≤ 10 ∨ (170 ≤ h ∧ h ≤ 180)) ∧ 50 ≤ s ∧ 50 ≤ v) by omega)]
  rw [if_neg (show ¬(11 ≤ h ∧ h ≤ 25 ∧ 50 ≤ s ∧ 50 ≤ v) by omega)]
  rw [if_neg (show ¬(26 ≤ h ∧ h ≤ 35 ∧ 50 ≤ s ∧ 50 ≤ v) by omega)]
  rw [if_neg (show ¬(36 ≤ h ∧ h ≤ 85 ∧ 50 ≤ s ∧ 50 ≤ v) by omega)]
  rw [if_neg (show ¬(86 ≤ h ∧ h ≤ 95 ∧ 50 ≤ s ∧ 50 ≤ v) by omega)]
  rw [if_neg (show ¬(96 ≤ h ∧ h ≤ 130 ∧ 50 ≤ s ∧ 50 ≤ v) by omega)]
  rw [if_neg (show ¬(131 ≤ h ∧ h ≤ 155 ∧ 50 ≤ s ∧ 50 ≤ v) by omega)]
  rw [if_neg (show ¬(156 ≤ h ∧ h ≤ 169 ∧ 50 ≤ s ∧ 50 ≤ v) by omega)]
  rw [if_neg (show ¬(s ≤ 30 ∧ 200 ≤ v) by omega)]
  rw [if_neg (show ¬(v ≤ 50) by omega)]
  rw [if_neg (show ¬(s ≤ 30 ∧ 51 ≤ v ∧ v ≤ 199) by omega)]

/-- Witness instantiating C4 at a concrete in-range triple. -/
theorem hsv_classifier_matches_spec_witness :
    hsv_to_color_name (100, 100, 100) = specClassify (100, 100, 100) :=
  hsv_classifier_matches_spec 100 100 100 (by decide) (by decide) (by decide)

/-- Helper: when the Python truthiness of max_frames is false, the read
loop behaves as if no limit was passed. -/
theorem runLoop_max_falsy (infer : ℕ → Except Unit (List Detection)) (thr fps : ℚ)
    (step : ℕ) (tgt : Option String) (mf : Option ℤ) (enc : ℕ → Bool)
    (hmf : maxFramesTruthy mf = false) :
    ∀ (fuel : ℕ) (st : LoopState),
      runLoop infer thr fps step tgt mf enc fuel st =
        runLoop infer thr fps step tgt none enc fuel st
  | 0, st => rfl
  | fuel + 1, st => by
    rw [runLoop, runLoop]
    by_cases hskip : st.frame_index % step ≠ 0
    · rw [if_pos hskip, if_pos hskip]
      exact runLoop_max_falsy infer thr fps step tgt mf enc hmf fuel _
    · rw [if_neg hskip, if_neg hskip]
      rcases hinf : infer st.frame_index with e | raw
      · rfl
      · dsimp only
        split_ifs with hb1 hb2 hb3
        · rfl
        · simp [hmf] at hb1
        · simp [maxFramesTruthy] at hb3
        · exact runLoop_max_falsy infer thr fps step tgt mf enc hmf fuel _

/-- Helper: one loop body appends a target hit only when it also appends a
frame result, so the length inequality is preserved. -/
theorem loopBody_hits_le (thr fps : ℚ) (tgt : Option String) (enc : Bool)
    (raw : List Detection) (st : LoopState)
    (hle : st.target_hits.length ≤ st.detections.length) :
    (loopBody thr fps tgt enc raw st).target_hits.length ≤
      (loopBody thr fps tgt enc raw st).detections.length := by
  rw [loopBody.eq_def]
  dsimp only
  by_cases hobj :
      (infer_frame raw thr ((st.frame_index : ℚ) / fps) st.frame_index enc).objects.isEmpty = true
  · rw [if_pos hobj, if_pos hobj]
    exact hle
  · rw [if_neg hobj, if_neg hobj, List.length_append]
    rcases tgt with _ | t
    · dsimp only
      omega
    · dsimp only
      by_cases ht : t = ""
      · rw [if_pos ht]
        omega
      · rw [if_neg ht]
        by_cases hm :
            (targetMatches t
              (infer_frame raw thr ((st.frame_index : ℚ) / fps) st.frame_index enc).objects).isEmpty = true
        · rw [if_pos hm]
          omega
        · rw [if_neg hm, List.length_append]
          simp only [List.length_singleton]
          omega

/-- Helper: if the read loop completes normally, the target-hit count never
exceeds the frame-result count, given it did not on entry. -/
theorem runLoop_hits_le (infer : ℕ → Except Unit (List Detection)) (thr fps : ℚ)
    (step : ℕ) (tgt : Option String) (mf : Option ℤ) (enc : ℕ → Bool) :
    ∀ (fuel : ℕ) (st st' : LoopState),
      runLoop infer thr fps step tgt mf enc fuel st = .ok st' →
      st.target_hits.length ≤ st.detections.length →
      st'.target_hits.length ≤ st'.detections.length
  | 0, st, st', h, hle => by
    rw [runLoop] at h
    cases h
    exact hle
  | fuel + 1, st, st', h, hle => by
    rw [runLoop] at h
    by_cases hskip : st.frame_index % step ≠ 0
    · rw [if_pos hskip] at h
      exact runLoop_hits_le infer thr fps step tgt mf enc fuel _ _ h hle
    · rw [if_neg hskip] at h
      rcases hinf : infer st.frame_index with e | raw
      · rw [hinf] at h
        exact absurd h (by simp)
      · rw [hinf] at h
        dsimp only at h
        have hbody := loopBody_hits_le thr fps tgt (enc st.frame_index) raw st hle
        by_cases hb : maxFramesTruthy mf = true ∧
            mf.getD 0 ≤ ((loopBody thr fps tgt (enc st.frame_index) raw st).processed_frames : ℤ)
        · rw [if_pos hb] at h
          cases h
          exact hbody
        · rw [if_neg hb] at h
          exact runLoop_hits_le infer thr fps step tgt mf enc fuel _ _ h hbody

/-- Helper: with a max_frames limit N, the loop breaks as soon as the
processed-frame counter reaches N, so the counter never exceeds N when it
was strictly below N on entry. -/
theorem runLoop_processed_le (infer : ℕ → Except Unit (List Detection)) (thr fps : ℚ)
    (step : ℕ) (tgt : Option String) (enc : ℕ → Bool) (N : ℤ) :
    ∀ (fuel : ℕ) (st st' : LoopState),
      runLoop infer thr fps step tgt (some N) enc fuel st = .ok st' →
      (st.processed_frames : ℤ) < N →
      (st'.processed_frames : ℤ) ≤ N
  | 0, st, st', h, hlt => by
    rw [runLoop] at h
    cases h
    omega
  | fuel + 1, st, st', h, hlt => by
    rw [runLoop] at h
    by_cases hskip : st.frame_index % step ≠ 0
    · rw [if_pos hskip] at h
      exact runLoop_processed_le infer thr fps step tgt enc N fuel _ _ h hlt
    · rw [if_neg hskip] at h
      rcases hinf : infer st.frame_index with e | raw
      · rw [hinf] at h
        exact absurd h (by simp)
      · rw [hinf] at h
        dsimp only at h
        have hproc :
            (loopBody thr fps tgt (enc st.frame_index) raw st).processed_frames =
              st.processed_frames + 1 := rfl
        by_cases hb : maxFramesTruthy (some N) = true ∧
            (some N).getD 0 ≤ ((loopBody thr fps tgt (enc st.frame_index) raw st).processed_frames : ℤ)
        · rw [if_pos hb] at h
          cases h
          omega
        · rw [if_neg hb] at h
          refine runLoop_processed_le infer thr fps step tgt enc N fuel _ _ h ?_
          simp only [maxFramesTruthy, Option.getD_some, bne_iff_ne, ne_eq,
            not_and, not_le] at hb
          show ((loopBody thr fps tgt (enc st.frame_index) raw st).processed_frames : ℤ) < N
          by_cases hN : N = 0
          · rw [hproc]
            omega
          · exact hb (by simpa using hN)

/-- Helper: with no frame cap and total inference, the loop always
completes, appends to the ghost trace exactly the in-range indices
divisible by the step, and counts them as processed frames. -/
theorem runLoop_none_sampling (raw : ℕ → List Detection) (thr fps : ℚ) (step : ℕ)
    (tgt : Option String) (enc : ℕ → Bool) :
    ∀ (fuel : ℕ) (st : LoopState), ∃ st',
      runLoop (fun i => .ok (raw i)) thr fps step tgt none enc fuel st = .ok st' ∧
      st'.sampled = st.sampled ++
        (List.range' st.frame_index fuel).filter (fun i => decide (i % step = 0)) ∧
      st'.processed_frames = st.processed_frames +
        ((List.range' st.frame_index fuel).filter (fun i => decide (i % step = 0))).length
  | 0, st => ⟨st, by rw [runLoop], by simp [List.range'], by simp [List.range']⟩
  | fuel + 1, st => by
    rw [List.range'_succ]
    by_cases hskip : st.frame_index % step ≠ 0
    · obtain ⟨st', hrun, hsamp, hproc⟩ :=
        runLoop_none_sampling raw thr fps step tgt enc fuel
          { st with frame_index := st.frame_index + 1 }
      refine ⟨st', ?_, ?_, ?_⟩
      · rw [runLoop, if_pos hskip]
        exact hrun
      · rw [hsamp]
        rw [List.filter_cons_of_neg (by simpa using hskip)]
      · rw [hproc]
        rw [List.filter_cons_of_neg (by simpa using hskip)]
    · obtain ⟨st', hrun, hsamp, hproc⟩ :=
        runLoop_none_sampling raw thr fps step tgt enc fuel
          { loopBody thr fps tgt (enc st.frame_index) (raw st.frame_index) st with
            frame_index := st.frame_index + 1 }
      refine ⟨st', ?_, ?_, ?_⟩
      · rw [runLoop, if_neg hskip]
        dsimp only
        rw [if_neg (by simp [maxFramesTruthy])]
        exact hrun
      · rw [hsamp]
        rw [List.filter_cons_of_pos (by simpa using hskip)]
        show (st.sampled ++ [st.frame_index]) ++ _ = _
        rw [List.append_assoc]
        rfl
      · have hlb :
            (loopBody thr fps tgt (enc st.frame_index) (raw st.frame_index) st).processed_frames =
              st.processed_frames + 1 := rfl
        rw [hproc]
        rw [List.filter_cons_of_pos (by simpa using hskip)]
        dsimp only
        rw [hlb, List.length_cons]
        omega

/-- C9: on every successful run, detections_found and target_hits in the
summary equal the lengths of the results and target-hit lists, and a
target hit is only recorded alongside a frame result, so the hit count
never exceeds the result count. -/
theorem hits_bounded_by_results
    (default_min_conf : ℚ) (fileExists openOk : Bool) (reportedFps : ℚ)
    (metaTotal numFrames : ℕ) (infer : ℕ → Except Unit (List Detection))
    (frame_interval_seconds : ℚ) (min_confidence : Option ℚ)
    (target_object : Option String) (max_frames : Option ℤ) (encodeOk : ℕ → Bool)
    (out : PvOutput) (rel : Bool)
    (h : process_video default_min_conf fileExists openOk reportedFps metaTotal numFrames
        infer frame_interval_seconds min_confidence target_object max_frames encodeOk =
        (.ok out, rel)) :
    out.summary.detections_found = out.results.length ∧
    out.summary.target_hits = out.target_hits.length ∧
    out.target_hits.length ≤ out.results.length := by
  rw [process_video] at h
  cases fileExists
  · simp at h
  · cases openOk
    · simp at h
    · simp only [Bool.not_true, Bool.false_eq_true, if_false] at h
      by_cases hint : frame_interval_seconds ≤ 0
      · rw [if_pos hint] at h
        simp at h
      · rw [if_neg hint] at h
        rcases hrun : runLoop infer (min_confidence.getD default_min_conf)
            (if reportedFps ≤ 0 then 30 else reportedFps)
            (max (⌈frame_interval_seconds *
              (if reportedFps ≤ 0 then 30 else reportedFps)⌉).toNat 1)
            target_object max_frames encodeOk numFrames ⟨[], [], 0, 0, []⟩ with e | st
        · rw [hrun] at h
          simp at h
        · rw [hrun] at h
          dsimp only at h
          have hle := runLoop_hits_le infer (min_confidence.getD default_min_conf)
            (if reportedFps ≤ 0 then 30 else reportedFps)
            (max (⌈frame_interval_seconds *
              (if reportedFps ≤ 0 then 30 else reportedFps)⌉).toNat 1)
            target_object max_frames encodeOk numFrames ⟨[], [], 0, 0, []⟩ st hrun
            (by simp)
          simp only [Prod.mk.injEq, Except.ok.injEq] at h
          obtain ⟨hout, hrel⟩ := h
          subst hout
          exact ⟨rfl, rfl, hle⟩

/-- Witness instantiating C9 on a concrete one-frame run with one detection
and a matching target. -/
theorem hits_bounded_by_results_witness :
    ∃ (out : PvOutput) (rel : Bool),
      process_video 0 true true 30 1 1 (fun _ => .ok [⟨"car", (1:ℚ), []⟩]) 1 none
          (some "car") none (fun _ => true) = (.ok out, rel) ∧
      out.summary.detections_found = out.results.length ∧
      out.summary.target_hits = out.target_hits.length ∧
      out.target_hits.length ≤ out.results.length := by
  obtain ⟨st, hok, -, -⟩ := runLoop_none_sampling (fun _ => [⟨"car", (1:ℚ), []⟩]) 0 30
      (max (⌈(1:ℚ) * 30⌉).toNat 1) (some "car") (fun _ => true) 1 ⟨[], [], 0, 0, []⟩
  obtain ⟨out, rel, hpv⟩ :
      ∃ out rel, process_video 0 true true 30 1 1 (fun _ => .ok [⟨"car", (1:ℚ), []⟩]) 1 none
        (some "car") none (fun _ => true) = (.ok out, rel) := by
    rw [process_video]
    simp only [Bool.not_true, Bool.false_eq_true, if_false]
    rw [if_neg (by norm_num : ¬(1:ℚ) ≤ 0), if_neg (by norm_num : ¬(30:ℚ) ≤ 0)]
    rw [show (none : Option ℚ).getD 0 = 0 from rfl]
    rw [hok]
    exact ⟨_, _, rfl⟩
  exact ⟨out, rel, hpv, hits_bounded_by_results 0 true true 30 1 1 _ 1 none (some "car")
    none (fun _ => true) out rel hpv⟩

/-- Helper: when inference never fails, the read loop always completes
normally whatever the frame cap. -/
theorem runLoop_total_ok (raw : ℕ → List Detection) (thr fps : ℚ) (step : ℕ)
    (tgt : Option String) (mf : Option ℤ) (enc : ℕ → Bool) :
    ∀ (fuel : ℕ) (st : LoopState), ∃ st',
      runLoop (fun i => .ok (raw i)) thr fps step tgt mf enc fuel st = .ok st'
  | 0, st => ⟨st, rfl⟩
  | fuel + 1, st => by
    rw [runLoop]
    by_cases hskip : st.frame_index % step ≠ 0
    · rw [if_pos hskip]
      exact runLoop_total_ok raw thr fps step tgt mf enc fuel _
    · rw [if_neg hskip]
      dsimp only
      by_cases hb : maxFramesTruthy mf = true ∧ mf.getD 0 ≤
          ((loopBody thr fps tgt (enc st.frame_index) (raw st.frame_index) st).processed_frames : ℤ)
      · rw [if_pos hb]
        exact ⟨_, rfl⟩
      · rw [if_neg hb]
        exact runLoop_total_ok raw thr fps step tgt mf enc fuel _

/-- C10: max_frames = 0 is falsy and means no limit, while a positive cap N
bounds the processed-frame count of every successful run by N. -/
theorem max_frames_semantics :
    (∀ (default_min_conf : ℚ) (fileExists openOk : Bool) (reportedFps : ℚ)
       (metaTotal numFrames : ℕ) (infer : ℕ → Except Unit (List Detection))
       (fis : ℚ) (mc : Option ℚ) (tgt : Option String) (enc : ℕ → Bool),
      process_video default_min_conf fileExists openOk reportedFps metaTotal numFrames
        infer fis mc tgt (some 0) enc =
      process_video default_min_conf fileExists openOk reportedFps metaTotal numFrames
        infer fis mc tgt none enc) ∧
    (∀ (default_min_conf : ℚ) (fileExists openOk : Bool) (reportedFps : ℚ)
       (metaTotal numFrames : ℕ) (infer : ℕ → Except Unit (List Detection))
       (fis : ℚ) (mc : Option ℚ) (tgt : Option String) (enc : ℕ → Bool)
       (N : ℤ) (out : PvOutput) (rel : Bool),
      0 < N →
      process_video default_min_conf fileExists openOk reportedFps metaTotal numFrames
        infer fis mc tgt (some N) enc = (.ok out, rel) →
      (out.summary.processed_frames : ℤ) ≤ N) := by
  constructor
  · intro default_min_conf fileExists openOk reportedFps metaTotal numFrames infer fis mc tgt enc
    simp only [process_video]
    rw [runLoop_max_falsy infer (mc.getD default_min_conf)
      (if reportedFps ≤ 0 then 30 else reportedFps)
      (max (⌈fis * (if reportedFps ≤ 0 then 30 else reportedFps)⌉).toNat 1)
      tgt (some 0) enc (by decide) numFrames ⟨[], [], 0, 0, []⟩]
  · intro default_min_conf fileExists openOk reportedFps metaTotal numFrames infer fis mc
      tgt enc N out rel hN h
    rw [process_video] at h
    cases fileExists
    · simp at h
    · cases openOk
      · simp at h
      · simp only [Bool.not_true, Bool.false_eq_true, if_false] at h
        by_cases hint : fis ≤ 0
        · rw [if_pos hint] at h
          simp at h
        · rw [if_neg hint] at h
          rcases hrun : runLoop infer (mc.getD default_min_conf)
              (if reportedFps ≤ 0 then 30 else reportedFps)
              (max (⌈fis * (if reportedFps ≤ 0 then 30 else reportedFps)⌉).toNat 1)
              tgt (some N) enc numFrames ⟨[], [], 0, 0, []⟩ with e | st
          · rw [hrun] at h
            simp at h
          · rw [hrun] at h
            have hle := runLoop_processed_le infer (mc.getD default_min_conf)
              (if reportedFps ≤ 0 then 30 else reportedFps)
              (max (⌈fis * (if reportedFps ≤ 0 then 30 else reportedFps)⌉).toNat 1)
              tgt enc N numFrames ⟨[], [], 0, 0, []⟩ st hrun (by simpa using hN)
            simp only [Prod.mk.injEq, Except.ok.injEq] at h
            obtain ⟨hout, hrel⟩ := h
            subst hout
            exact hle

/-- Witness instantiating C10: the no-limit equivalence at concrete inputs
and the cap at a concrete one-frame run limited to five frames. -/
theorem max_frames_semantics_witness :
    (process_video 0 true true 30 1 1 (fun _ => .ok []) 1 none none (some 0) (fun _ => true) =
      process_video 0 true true 30 1 1 (fun _ => .ok []) 1 none none none (fun _ => true)) ∧
    (∃ (out : PvOutput) (rel : Bool),
      process_video 0 true true 30 1 1 (fun _ => .ok []) 1 none none (some 5) (fun _ => true) =
        (.ok out, rel) ∧ (out.summary.processed_frames : ℤ) ≤ 5) := by
  constructor
  · exact max_frames_semantics.1 0 true true 30 1 1 (fun _ => .ok []) 1 none none (fun _ => true)
  · obtain ⟨st, hok⟩ := runLoop_total_ok (fun _ => []) 0 30
      (max (⌈(1:ℚ) * 30⌉).toNat 1) none (some 5) (fun _ => true) 1 ⟨[], [], 0, 0, []⟩
    obtain ⟨out, rel, hpv⟩ :
        ∃ out rel, process_video 0 true true 30 1 1 (fun _ => .ok []) 1 none none (some 5)
          (fun _ => true) = (.ok out, rel) := by
      rw [process_video]
      simp only [Bool.not_true, Bool.false_eq_true, if_false]
      rw [if_neg (by norm_num : ¬(1:ℚ) ≤ 0), if_neg (by norm_num : ¬(30:ℚ) ≤ 0)]
      rw [show (none : Option ℚ).getD 0 = 0 from rfl]
      rw [hok]
      exact ⟨_, _, rfl⟩
    exact ⟨out, rel, hpv, max_frames_semantics.2 0 true true 30 1 1 (fun _ => .ok []) 1 none
      none (fun _ => true) 5 out rel (by norm_num) hpv⟩

/-- C1: with a positive interval and no cap, the sampling step is
ceil(interval times fps) floored at 1, with fps replaced by 30 when the
reported fps is zero or negative, and the frames forwarded to inference are
exactly those with index divisible by the step; with fps 30, 90 frames and
interval 1 the sampled indices are 0, 30, 60 and three frames are
processed. -/
theorem sampling_cadence :
    (∀ (default_min_conf : ℚ) (reportedFps : ℚ) (metaTotal numFrames : ℕ)
       (raw : ℕ → List Detection) (fis : ℚ) (mc : Option ℚ) (tgt : Option String)
       (enc : ℕ → Bool) (out : PvOutput) (rel : Bool),
      0 < fis →
      process_video default_min_conf true true reportedFps metaTotal numFrames
        (fun i => .ok (raw i)) fis mc tgt none enc = (.ok out, rel) →
      out.sampled = (List.range numFrames).filter
        (fun i => decide (i % (max (⌈fis * (if reportedFps ≤ 0 then 30
          else reportedFps)⌉).toNat 1) = 0)) ∧
      out.summary.processed_frames = ((List.range numFrames).filter
        (fun i => decide (i % (max (⌈fis * (if reportedFps ≤ 0 then 30
          else reportedFps)⌉).toNat 1) = 0))).length) ∧
    (∃ (out : PvOutput) (rel : Bool),
      process_video 0 true true 30 90 90 (fun _ => .ok []) 1 none none none
        (fun _ => true) = (.ok out, rel) ∧
      out.sampled = [0, 30, 60] ∧ out.summary.processed_frames = 3) := by
  have part1 : ∀ (default_min_conf : ℚ) (reportedFps : ℚ) (metaTotal numFrames : ℕ)
      (raw : ℕ → List Detection) (fis : ℚ) (mc : Option ℚ) (tgt : Option String)
      (enc : ℕ → Bool) (out : PvOutput) (rel : Bool),
      0 < fis →
      process_video default_min_conf true true reportedFps metaTotal numFrames
        (fun i => .ok (raw i)) fis mc tgt none enc = (.ok out, rel) →
      out.sampled = (List.range numFrames).filter
        (fun i => decide (i % (max (⌈fis * (if reportedFps ≤ 0 then 30
          else reportedFps)⌉).toNat 1) = 0)) ∧
      out.summary.processed_frames = ((List.range numFrames).filter
        (fun i => decide (i % (max (⌈fis * (if reportedFps ≤ 0 then 30
          else reportedFps)⌉).toNat 1) = 0))).length := by
    intro default_min_conf reportedFps metaTotal numFrames raw fis mc tgt enc out rel hpos h
    rw [process_video] at h
    simp only [Bool.not_true, Bool.false_eq_true, if_false] at h
    rw [if_neg (not_le.mpr hpos)] at h
    obtain ⟨st, hok, hsamp, hproc⟩ := runLoop_none_sampling raw
      (mc.getD default_min_conf) (if reportedFps ≤ 0 then 30 else reportedFps)
      (max (⌈fis * (if reportedFps ≤ 0 then 30 else reportedFps)⌉).toNat 1)
      tgt enc numFrames ⟨[], [], 0, 0, []⟩
    rw [hok] at h
    simp only [Prod.mk.injEq, Except.ok.injEq] at h
    obtain ⟨hout, hrel⟩ := h
    subst hout
    dsimp only at hsamp hproc
    refine ⟨?_, ?_⟩
    · show st.sampled = _
      rw [hsamp]
      rw [List.nil_append, List.range_eq_range']
    · show st.processed_frames = _
      rw [hproc]
      rw [List.range_eq_range']
      omega
  refine ⟨part1, ?_⟩
  obtain ⟨st, hok⟩ := runLoop_total_ok (fun _ => []) 0 30
    (max (⌈(1:ℚ) * 30⌉).toNat 1) none none (fun _ => true) 90 ⟨[], [], 0, 0, []⟩
  obtain ⟨out, rel, hpv⟩ :
      ∃ out rel, process_video 0 true true 30 90 90 (fun _ => .ok []) 1 none none none
        (fun _ => true) = (.ok out, rel) := by
    rw [process_video]
    simp only [Bool.not_true, Bool.false_eq_true, if_false]
    rw [if_neg (by norm_num : ¬(1:ℚ) ≤ 0), if_neg (by norm_num : ¬(30:ℚ) ≤ 0)]
    rw [show (none : Option ℚ).getD 0 = 0 from rfl]
    rw [hok]
    exact ⟨_, _, rfl⟩
  have hstep : max (⌈(1:ℚ) * (if (30:ℚ) ≤ 0 then 30 else 30)⌉).toNat 1 = 30 := by
    rw [if_neg (by norm_num : ¬(30:ℚ) ≤ 0)]
    have : ⌈(1:ℚ) * 30⌉ = 30 := by norm_num
    rw [this]
    rfl
  obtain ⟨hsamp, hproc⟩ := part1 0 30 90 90 (fun _ => []) 1 none none (fun _ => true)
    out rel (by norm_num) hpv
  rw [hstep] at hsamp hproc
  refine ⟨out, rel, hpv, ?_, ?_⟩
  · rw [hsamp]
    decide
  · rw [hproc]
    decide

/-- Witness instantiating C1's general clause at the concrete scenario
run. -/
theorem sampling_cadence_witness :
    ∃ (out : PvOutput) (rel : Bool),
      process_video 0 true true 30 90 90 (fun _ => .ok []) 1 none none none
        (fun _ => true) = (.ok out, rel) ∧
      out.sampled = [0, 30, 60] ∧ out.summary.processed_frames = 3 :=
  sampling_cadence.2

/-- C5 counterexample: an execution that opens the capture and is rejected
for a non-positive interval raises ValueError with the release flag still
false — the ValueError at detector.py line 143 fires between
cv2.VideoCapture (line 134) and the try/finally (lines 157, 206-207), so
capture.release() never runs on this path. -/
theorem capture_release_counterexample :
    process_video 0 true true 30 90 90 (fun _ => .ok []) 0 none none none
      (fun _ => true) = (.error .badInterval, false) := by
  rw [process_video]
  simp only [Bool.not_true, Bool.false_eq_true, if_false]
  rw [if_pos (le_refl (0 : ℚ))]

/-- C5 amended: once the read loop is entered (file exists, capture opens,
interval positive), the handle is released on every exit — normal
completion, the max_frames break, and inference errors; but on the
non-positive-interval rejection the function exits with the opened handle
unreleased. -/
theorem capture_release_amended
    (default_min_conf : ℚ) (reportedFps : ℚ) (metaTotal numFrames : ℕ)
    (infer : ℕ → Except Unit (List Detection)) (fis : ℚ) (mc : Option ℚ)
    (tgt : Option String) (mf : Option ℤ) (enc : ℕ → Bool) :
    (0 < fis →
      (process_video default_min_conf true true reportedFps metaTotal numFrames
        infer fis mc tgt mf enc).2 = true) ∧
    (fis ≤ 0 →
      process_video default_min_conf true true reportedFps metaTotal numFrames
        infer fis mc tgt mf enc = (.error .badInterval, false)) := by
  constructor
  · intro hpos
    rw [process_video]
    simp only [Bool.not_true, Bool.false_eq_true, if_false]
    rw [if_neg (not_le.mpr hpos)]
    rcases hrun : runLoop infer (mc.getD default_min_conf)
        (if reportedFps ≤ 0 then 30 else reportedFps)
        (max (⌈fis * (if reportedFps ≤ 0 then 30 else reportedFps)⌉).toNat 1)
        tgt mf enc numFrames ⟨[], [], 0, 0, []⟩ with e | st
    · rfl
    · rfl
  · intro hneg
    rw [process_video]
    simp only [Bool.not_true, Bool.false_eq_true, if_false]
    rw [if_pos hneg]

/-- Witness instantiating C5's amended clauses: release happens on a
positive-interval run (also when inference fails), and the bad-interval
exit leaves the handle unreleased. -/
theorem capture_release_amended_witness :
    (process_video 0 true true 30 90 90 (fun _ => .ok []) 1 none none none
      (fun _ => true)).2 = true ∧
    (process_video 0 true true 30 90 90 (fun _ => .error ()) 1 none none none
      (fun _ => true)).2 = true ∧
    process_video 0 true true 30 90 90 (fun _ => .ok []) 0 none none none
      (fun _ => true) = (.error .badInterval, false) :=
  ⟨(capture_release_amended 0 30 90 90 (fun _ => .ok []) 1 none none none
      (fun _ => true)).1 (by norm_num),
   (capture_release_amended 0 30 90 90 (fun _ => .error ()) 1 none none none
      (fun _ => true)).1 (by norm_num),
   (capture_release_amended 0 30 90 90 (fun _ => .ok []) 0 none none none
      (fun _ => true)).2 (le_refl 0)⟩

/-- Helper: boolean containment on pair lists agrees with membership. -/
theorem pairContains_iff (p : String × String) (l : List (String × String)) :
    l.contains p = true ↔ p ∈ l := by
  simp

/-- Helper: membership in the pair deduplication is membership in the input
minus the already-seen keys. -/
theorem dedupPairsAux_mem (p : String × String) :
    ∀ (l seen : List (String × String)),
      p ∈ dedupPairsAux seen l ↔ p ∈ l ∧ p ∉ seen
  | [], seen => by simp [dedupPairsAux]
  | q :: rest, seen => by
    rw [dedupPairsAux]
    by_cases hq : seen.contains q = true
    · rw [if_pos hq]
      rw [dedupPairsAux_mem p rest seen]
      simp only [List.mem_cons]
      have hqmem : q ∈ seen := (pairContains_iff q seen).mp hq
      constructor
      · rintro ⟨hp, hns⟩
        exact ⟨Or.inr hp, hns⟩
      · rintro ⟨hp | hp, hns⟩
        · exact absurd (hp ▸ hqmem) hns
        · exact ⟨hp, hns⟩
    · rw [if_neg hq]
      have hqmem : q ∉ seen := fun hmem => hq ((pairContains_iff q seen).mpr hmem)
      simp only [List.mem_cons, dedupPairsAux_mem p rest (q :: seen)]
      constructor
      · rintro (rfl | ⟨hp, hns⟩)
        · exact ⟨Or.inl rfl, hqmem⟩
        · exact ⟨Or.inr hp, fun hmem => hns (Or.inr hmem)⟩
      · rintro ⟨rfl | hp, hns⟩
        · exact Or.inl rfl
        · rcases eq_or_ne p q with rfl | hne
          · exact Or.inl rfl
          · refine Or.inr ⟨hp, fun hmem => ?_⟩
            rcases hmem with rfl | hmem2
            · exact hne rfl
            · exact hns hmem2

/-- Helper: a pair is produced by the adjacent scan exactly when somewhere
in the word sequence a color keyword is immediately followed by a word that
is neither stopword nor color keyword. -/
theorem pairsFromWords_mem (p : String × String) :
    ∀ ws : List String, p ∈ pairsFromWords ws ↔
      ∃ (pre post : List String) (a b : String),
        ws = pre ++ a :: b :: post ∧
        color_keywords.contains a = true ∧ STOPWORDS.contains b = false ∧
        color_keywords.contains b = false ∧ p = (b, a)
  | [] => by
    rw [pairsFromWords.eq_def]
    simp only [List.not_mem_nil, false_iff]
    rintro ⟨pre, post, a, b, heq, -⟩
    cases pre <;> simp at heq
  | [w] => by
    rw [pairsFromWords.eq_def]
    simp only [List.not_mem_nil, false_iff]
    rintro ⟨pre, post, a, b, heq, -⟩
    rcases pre with _ | ⟨x, _ | ⟨y, pre'⟩⟩ <;> simp at heq
  | w1 :: w2 :: rest => by
    rw [pairsFromWords]
    have ih := pairsFromWords_mem p (w2 :: rest)
    by_cases hcond : (color_keywords.contains w1 && !STOPWORDS.contains w2 &&
        !color_keywords.contains w2) = true
    · rw [if_pos hcond]
      simp only [Bool.and_eq_true, Bool.not_eq_true'] at hcond
      obtain ⟨⟨hc1, hc2⟩, hc3⟩ := hcond
      rw [List.mem_cons, ih]
      constructor
      · rintro (rfl | ⟨pre, post, a, b, heq, ha, hb, hb2, rfl⟩)
        · exact ⟨[], rest, w1, w2, rfl, hc1, hc2, hc3, rfl⟩
        · exact ⟨w1 :: pre, post, a, b, by rw [heq]; rfl, ha, hb, hb2, rfl⟩
      · rintro ⟨pre, post, a, b, heq, ha, hb, hb2, rfl⟩
        rcases pre with _ | ⟨x, pre'⟩
        · simp only [List.nil_append, List.cons.injEq] at heq
          obtain ⟨rfl, rfl, rfl⟩ := heq
          exact Or.inl rfl
        · simp only [List.cons_append, List.cons.injEq] at heq
          obtain ⟨rfl, heq2⟩ := heq
          exact Or.inr ⟨pre', post, a, b, heq2, ha, hb, hb2, rfl⟩
    · rw [if_neg hcond]
      rw [ih]
      constructor
      · rintro ⟨pre, post, a, b, heq, ha, hb, hb2, rfl⟩
        exact ⟨w1 :: pre, post, a, b, by rw [heq]; rfl, ha, hb, hb2, rfl⟩
      · rintro ⟨pre, post, a, b, heq, ha, hb, hb2, rfl⟩
        rcases pre with _ | ⟨x, pre'⟩
        · simp only [List.nil_append, List.cons.injEq] at heq
          obtain ⟨rfl, rfl, rfl⟩ := heq
          exact absurd (by rw [ha, hb, hb2]; rfl) hcond
        · simp only [List.cons_append, List.cons.injEq] at heq
          obtain ⟨rfl, heq2⟩ := heq
          exact ⟨pre', post, a, b, heq2, ha, hb, hb2, rfl⟩

/-- C7 counterexample: on the query "red ox" the source fallback pairs the
color with the two-letter word "ox" taken from the whitespace split of the
query, while the claimed algorithm, which tokenizes to words of length at
least 3 before pairing, produces no pair at all. -/
theorem intent_fallback_counterexample :
    (parse_intent_fallback "red ox").pairs = [("ox", "red")] ∧
    (claimFallback "red ox").pairs = [] ∧
    parse_intent_fallback "red ox" ≠ claimFallback "red ox" := by
  refine ⟨by decide, by decide, by decide⟩

/-- Helper: membership through ordered insertion. -/
theorem insertSorted_mem (x y : String) :
    ∀ l : List String, x ∈ insertSorted y l ↔ x = y ∨ x ∈ l
  | [] => by simp [insertSorted]
  | z :: zs => by
    rw [insertSorted]
    by_cases h : charListLe y.data z.data = true
    · rw [if_pos h]
      simp
    · rw [if_neg h]
      rw [List.mem_cons, insertSorted_mem x y zs, List.mem_cons]
      tauto

/-- Helper: the sorted-set of a list has exactly the list's members. -/
theorem sortedSet_mem (x : String) (l : List String) : x ∈ sortedSet l ↔ x ∈ l := by
  rw [sortedSet]
  have hfold : ∀ (ll acc : List String),
      x ∈ ll.foldr insertSorted acc ↔ x ∈ ll ∨ x ∈ acc := by
    intro ll
    induction ll with
    | nil => simp
    | cons a as ih =>
      intro acc
      rw [List.foldr_cons, insertSorted_mem x a, ih acc, List.mem_cons]
      tauto
  rw [hfold l.dedup [], List.mem_dedup]
  simp

/-- Helper: every token produced by the length-at-least-3 tokenizer is a
nonempty string. -/
theorem findTokens_ne_empty (t s : String) (h : t ∈ findTokens s) : t ≠ "" := by
  rw [findTokens] at h
  obtain ⟨run, hrun, hsome⟩ := List.mem_filterMap.mp h
  split_ifs at hsome with hc
  · simp only [Option.some.injEq] at hsome
    simp only [Bool.and_eq_true, decide_eq_true_eq] at hc
    subst hsome
    intro hempty
    have hdata : run = [] := by
      have := congrArg String.data hempty
      simpa using this
    rw [hdata] at hc
    simp at hc

/-- C7 amended: the fallback never raises and returns empty lists for empty
(or all-whitespace) input; its pairs are found by scanning the lowercased
whitespace-split word sequence of any word length, pairing each color
keyword with its immediate successor when that successor is neither a
stopword nor a color keyword; when that scan finds no pair, the color
keywords among the length-at-least-3 tokens become the colors and the
remaining non-stopword, non-color tokens become the targets; on
"find a red car" it returns pairs=[(car, red)], targets=[car],
colors=[red]. -/
theorem intent_fallback_amended :
    (∀ q : String, trimStr q = "" → parse_intent_fallback q = ⟨[], [], []⟩) ∧
    (∀ (q : String) (p : String × String),
      p ∈ (parse_intent_fallback q).pairs ↔
      ∃ (pre post : List String) (a b : String),
        lowerWords (trimStr q) = pre ++ a :: b :: post ∧
        color_keywords.contains a = true ∧ STOPWORDS.contains b = false ∧
        color_keywords.contains b = false ∧ p = (b, a)) ∧
    (∀ q : String, trimStr q ≠ "" →
      pairsFromWords (lowerWords (trimStr q)) = [] →
      (∀ c : String, c ∈ (parse_intent_fallback q).colors ↔
        c ∈ findTokens (toLowerStr (trimStr q)) ∧ color_keywords.contains c = true) ∧
      (∀ t : String, t ∈ (parse_intent_fallback q).targets ↔
        t ∈ findTokens (toLowerStr (trimStr q)) ∧ color_keywords.contains t = false ∧
          STOPWORDS.contains t = false)) ∧
    parse_intent_fallback "find a red car" = ⟨["car"], ["red"], [("car", "red")]⟩ := by
  refine ⟨?_, ?_, ?_, by decide⟩
  · intro q hq
    rw [parse_intent_fallback, hq]
    rfl
  · intro q p
    by_cases hq : trimStr q = ""
    · rw [parse_intent_fallback, hq]
      rw [if_pos rfl]
      simp only [List.not_mem_nil, false_iff]
      rintro ⟨pre, post, a, b, heq, -⟩
      have : lowerWords "" = [] := rfl
      rw [this] at heq
      cases pre <;> simp at heq
    · rw [parse_intent_fallback]
      rw [if_neg hq]
      show p ∈ dedupPairs (pairsFromWords (lowerWords (trimStr q))) ↔ _
      rw [dedupPairs, dedupPairsAux_mem p (pairsFromWords (lowerWords (trimStr q))) []]
      rw [pairsFromWords_mem p (lowerWords (trimStr q))]
      simp only [List.not_mem_nil, not_false_iff, and_true]
  · intro q hq hpairs
    rw [parse_intent_fallback]
    rw [if_neg hq]
    dsimp only
    rw [hpairs]
    simp only [List.isEmpty_nil, if_true]
    constructor
    · intro c
      show c ∈ sortedSet (sortedSet _) ↔ _
      rw [sortedSet_mem, sortedSet_mem, List.mem_filter]
    · intro t
      show t ∈ sortedSet (List.filter _ (sortedSet _)) ↔ _
      rw [sortedSet_mem, List.mem_filter]
      constructor
      · rintro ⟨h1, h2⟩
        rw [sortedSet_mem, List.mem_filter] at h1
        obtain ⟨h3, h4⟩ := h1
        simp only [Bool.and_eq_true, Bool.not_eq_true'] at h4
        exact ⟨h3, h4.1, h4.2⟩
      · rintro ⟨h1, h2, h3⟩
        have hne := findTokens_ne_empty t (toLowerStr (trimStr q)) h1
        constructor
        · rw [sortedSet_mem, List.mem_filter]
          refine ⟨h1, ?_⟩
          rw [h2, h3]
          rfl
        · simp only [Bool.and_eq_true, Bool.not_eq_true', decide_eq_true_eq]
          exact ⟨hne, h3⟩

/-- Witness instantiating C7's amended clauses: the all-whitespace input, a
concrete pair extraction on the scenario query, and the separate
color/target emission on a no-pair query. -/
theorem intent_fallback_amended_witness :
    parse_intent_fallback "   " = ⟨[], [], []⟩ ∧
    ("car", "red") ∈ (parse_intent_fallback "find a red car").pairs ∧
    "cat" ∈ (parse_intent_fallback "find a cat").targets ∧
    "red" ∈ (parse_intent_fallback "any red frames").colors :=
  ⟨intent_fallback_amended.1 "   " (by decide),
   (intent_fallback_amended.2.1 "find a red car" ("car", "red")).mpr
     ⟨["find", "a"], [], "red", "car", by decide, by decide, by decide, by decide, rfl⟩,
   ((intent_fallback_amended.2.2.1 "find a cat" (by decide) (by decide)).2 "cat").mpr
     ⟨by decide, by decide, by decide⟩,
   ((intent_fallback_amended.2.2.1 "any red frames" (by decide) (by decide)).1 "red").mpr
     ⟨by decide, by decide⟩⟩
